import Mathlib

/-!
Verification development for the in-memory leave-management ledger
(`src/mcp/leave-management-mcp-server/main.py`).

The Python module keeps a module-level dictionary `employee_leaves` mapping
employee ids to `{"balance": int, "history": [str]}` records and exposes six
operations (`check_balance`, `apply_leave`, `cancel_leave`, `leave_history`,
`admin_adjust_balance`, `list_employees`).  Each operation is embedded below as
a pure function from the ledger to a structured result together with the new
ledger; Python's in-place dictionary mutation becomes explicit state passing.

Modelling choices:
* The dictionary is an insertion-ordered association list (Python dicts
  preserve insertion order; no operation ever inserts or deletes a key).
* Python `int` is `Int` (arbitrary precision in both).
* `datetime.strptime(s, "%Y-%m-%d")` is embedded as `parseDate`: CPython's
  `_strptime` matches `%Y` against exactly four digits and `%m` / `%d`
  against one or two digits (regexes `1[0-2]|0[1-9]|[1-9]` and
  `3[01]|[12]\d|0[1-9]|[1-9]`), requires the whole string to be consumed,
  and then the `datetime` constructor validates the day against the month
  length and the year against MINYEAR=1/MAXYEAR=9999.  Digits are modelled
  as ASCII digits (CPython's `\d` also matches other Unicode decimal
  digits, which are outside the model).  `dt.strftime("%Y-%m-%d")` is
  embedded as `fmtDate` (zero-padded rendering; exact for years ≥ 1000,
  while glibc leaves years below 1000 unpadded).
* A failure that Python reports by returning a dict with `"ok": False` is a
  result record with `ok := false`; no operation raises to its caller.
-/

namespace LeaveMgmt

/-- One employee's record: `{"balance": ..., "history": [...]}`. -/
structure Employee where
  balance : Int
  history : List String
deriving DecidableEq

/-- The module-level dictionary `employee_leaves`, as an insertion-ordered
association list. -/
abbrev Ledger := List (String × Employee)

/-- The seeded dictionary from the top of `main.py`. -/
def initialLedger : Ledger :=
  [("E001", { balance := 18, history := ["2024-12-25", "2025-01-01"] }),
   ("E002", { balance := 20, history := [] }),
   ("Prakash", { balance := 20, history := [] })]

/-- Dictionary lookup `employee_leaves[emp_id]` (also backs
`emp_id in employee_leaves`). -/
def lookupEmp : Ledger → String → Option Employee
  | [], _ => none
  | p :: rest, id => if p.1 == id then some p.2 else lookupEmp rest id

/-- `_employee_exists`: `emp_id in employee_leaves`. -/
def _employee_exists (L : Ledger) (emp_id : String) : Bool :=
  (lookupEmp L emp_id).isSome

/-- In-place mutation of the record stored under a key: a Python dict holds one
slot per key, so exactly the (first) matching entry is rewritten. -/
def updateEmp : Ledger → String → (Employee → Employee) → Ledger
  | [], _, _ => []
  | p :: rest, id, f => if p.1 == id then (p.1, f p.2) :: rest else p :: updateEmp rest id f

/-! ### Date handling (`datetime.strptime` / `strftime` with `"%Y-%m-%d"`) -/

/-- Numeric value of an ASCII digit character. -/
def digitVal (c : Char) : Nat := c.toNat - 48

/-- Rendering of one decimal digit (used by the zero-padded `strftime`
embedding). -/
def digitChar : Nat → Char
  | 0 => '0' | 1 => '1' | 2 => '2' | 3 => '3' | 4 => '4'
  | 5 => '5' | 6 => '6' | 7 => '7' | 8 => '8' | _ => '9'

/-- Gregorian leap year, as in Python's `calendar`/`datetime`. -/
def isLeapYear (y : Nat) : Bool :=
  (y % 4 == 0 && y % 100 != 0) || (y % 400 == 0)

/-- Length of a month, as validated by the `datetime` constructor. -/
def daysInMonth (y m : Nat) : Nat :=
  if m == 2 then (if isLeapYear y then 29 else 28)
  else if m == 4 || m == 6 || m == 9 || m == 11 then 30
  else 31

/-- The value checks performed on a parsed `%Y-%m-%d` triple: the `_strptime`
regex bounds (month 1..12, day at least 1) together with the `datetime`
constructor's validation (MINYEAR ≤ year ≤ MAXYEAR, day ≤ month length). -/
def mkValidDate (y m d : Nat) : Option (Nat × Nat × Nat) :=
  if 1 ≤ y ∧ y ≤ 9999 ∧ 1 ≤ m ∧ m ≤ 12 ∧ 1 ≤ d ∧ d ≤ daysInMonth y m then
    some (y, m, d)
  else none

/-- `datetime.strptime(s, "%Y-%m-%d")` on the character list: exactly four
digits, a dash, one or two digits, a dash, one or two digits, nothing after
(`_strptime` rejects unconsumed input), with the value checks of
`mkValidDate`.  The four structural shapes have lengths 10, 9, 9 and 8.
Digits are modelled as ASCII digits; CPython's `\d` additionally matches
every other Unicode decimal digit, so the source accepts further digit
scripts that are outside this model (no theorem below claims to
characterize the acceptance set exactly). -/
def parseDateChars : List Char → Option (Nat × Nat × Nat)
  | [a, b, c, d, e, f, g, h, i, j] =>
    if (e == '-') && (h == '-') &&
        (a.isDigit && b.isDigit && c.isDigit && d.isDigit &&
         f.isDigit && g.isDigit && i.isDigit && j.isDigit) then
      mkValidDate (1000 * digitVal a + 100 * digitVal b + 10 * digitVal c + digitVal d)
        (10 * digitVal f + digitVal g) (10 * digitVal i + digitVal j)
    else none
  | [a, b, c, d, e, f, g, h, i] =>
    if (e == '-') && (h == '-') &&
        (a.isDigit && b.isDigit && c.isDigit && d.isDigit &&
         f.isDigit && g.isDigit && i.isDigit) then
      mkValidDate (1000 * digitVal a + 100 * digitVal b + 10 * digitVal c + digitVal d)
        (10 * digitVal f + digitVal g) (digitVal i)
    else if (e == '-') && (g == '-') &&
        (a.isDigit && b.isDigit && c.isDigit && d.isDigit &&
         f.isDigit && h.isDigit && i.isDigit) then
      mkValidDate (1000 * digitVal a + 100 * digitVal b + 10 * digitVal c + digitVal d)
        (digitVal f) (10 * digitVal h + digitVal i)
    else none
  | [a, b, c, d, e, f, g, h] =>
    if (e == '-') && (g == '-') &&
        (a.isDigit && b.isDigit && c.isDigit && d.isDigit &&
         f.isDigit && h.isDigit) then
      mkValidDate (1000 * digitVal a + 100 * digitVal b + 10 * digitVal c + digitVal d)
        (digitVal f) (digitVal h)
    else none
  | _ => none

/-- `datetime.strptime(date_str, "%Y-%m-%d")`, returning the (year, month,
day) of the resulting `datetime`. -/
def parseDate (s : String) : Option (Nat × Nat × Nat) :=
  parseDateChars s.toList

/-- `dt.strftime("%Y-%m-%d")`: zero-padded `YYYY-MM-DD`.  `%m` and `%d` are
zero-padded on every platform; `%Y` is rendered zero-padded here, which is
exact for years ≥ 1000, while glibc leaves smaller years unpadded (e.g.
year 33 renders as "33") — that platform-dependent corner is outside this
model. -/
def fmtDate (y m d : Nat) : String :=
  String.mk [digitChar (y / 1000 % 10), digitChar (y / 100 % 10),
    digitChar (y / 10 % 10), digitChar (y % 10), '-',
    digitChar (m / 10 % 10), digitChar (m % 10), '-',
    digitChar (d / 10 % 10), digitChar (d % 10)]

/-- `_normalize_date`: parse with `strptime`, re-render with `strftime`;
`None` when parsing raises. -/
def _normalize_date (date_str : String) : Option String :=
  match parseDate date_str with
  | some (y, m, d) => some (fmtDate y m d)
  | none => none

/-- The `try` block of `apply_leave`: re-parse the normalized date, then for
`i in range(days)` format `base.replace(day=base.day + i)`.  The naive
day-field increment raises `ValueError` as soon as `base.day + i` exceeds the
month length, and the `except` arm then discards the partial list and keeps
just the normalized start date. -/
def expandDates (norm_date : String) (days : Int) : List String :=
  match parseDate norm_date with
  | some (y, m, d) =>
    if d + (days.toNat - 1) ≤ daysInMonth y m then
      (List.range days.toNat).map (fun i => fmtDate y m (d + i))
    else [norm_date]
  | none => [norm_date]

/-! ### Emoji constants used in response messages -/

def SUCCESS : String := "✅"
def INFO : String := "ℹ️"
def WARNING : String := "⚠️"
def ERROR : String := "❌"
def SPARKLE : String := "✨"
def CALENDAR : String := "📅"
def PERSON : String := "👤"

/-! ### Result dictionaries

Each tool returns a dict; keys that a branch does not set are `none`. -/

structure CheckBalanceResult where
  ok : Bool
  employee_id : Option String := none
  balance : Option Int := none
  history_count : Option Nat := none
  message : String
deriving DecidableEq

structure ApplyLeaveResult where
  ok : Bool
  employee_id : Option String := none
  applied_dates : Option (List String) := none
  days : Option Int := none
  new_balance : Option Int := none
  message : String
deriving DecidableEq

structure CancelLeaveResult where
  ok : Bool
  employee_id : Option String := none
  cancelled_date : Option String := none
  message : String
deriving DecidableEq

structure LeaveHistoryResult where
  ok : Bool
  employee_id : Option String := none
  history : Option (List String) := none
  message : String
deriving DecidableEq

structure EmployeeSummary where
  employee_id : String
  balance : Int
  history_count : Nat
deriving DecidableEq

structure ListEmployeesResult where
  ok : Bool
  employees : Option (List EmployeeSummary) := none
  message : String
deriving DecidableEq

structure AdminAdjustResult where
  ok : Bool
  employee_id : Option String := none
  new_balance : Option Int := none
  message : String
deriving DecidableEq

/-! ### The six tools -/

/-- `check_balance(employee_id)`. -/
def check_balance (employee_id : String) (L : Ledger) : CheckBalanceResult × Ledger :=
  match lookupEmp L employee_id with
  | none =>
    ({ ok := false,
       message := ERROR ++ " Employee " ++ employee_id ++ " not found." }, L)
  | some emp =>
    ({ ok := true, employee_id := some employee_id, balance := some emp.balance,
       history_count := some emp.history.length,
       message := SUCCESS ++ " " ++ PERSON ++ " *" ++ employee_id ++ "* has *" ++
         toString emp.balance ++ "* leave days remaining. " ++ CALENDAR ++
         " Past leaves: " ++ toString emp.history.length }, L)

/-- `apply_leave(employee_id, date, days=1, reason=None)`. -/
def apply_leave (employee_id date : String) (days : Int) (reason : Option String)
    (L : Ledger) : ApplyLeaveResult × Ledger :=
  match _normalize_date date with
  | none =>
    ({ ok := false, message := ERROR ++ " Invalid date format. Please use YYYY-MM-DD." }, L)
  | some norm_date =>
    if days ≤ 0 then
      ({ ok := false, message := ERROR ++ " Number of days must be >= 1." }, L)
    else
      match lookupEmp L employee_id with
      | none =>
        ({ ok := false,
           message := ERROR ++ " Employee `" ++ employee_id ++ "` not found." }, L)
      | some emp =>
        if days > emp.balance then
          ({ ok := false,
             message := WARNING ++ " Not enough leave balance. Requested " ++
               toString days ++ ", available " ++ toString emp.balance ++ "." }, L)
        else
          let applied_dates := expandDates norm_date days
          let new_balance := emp.balance - days
          let reason_text := match reason with
            | some r => " Reason: " ++ r ++ "."
            | none => ""
          ({ ok := true, employee_id := some employee_id,
             applied_dates := some applied_dates, days := some days,
             new_balance := some new_balance,
             message := SUCCESS ++ " Leave applied for *" ++ employee_id ++ "* on " ++
               String.intercalate ", " applied_dates ++ " for " ++ toString days ++
               " day(s)." ++ reason_text ++ " " ++ SPARKLE ++ " New balance: " ++
               toString new_balance ++ " day(s)." },
           updateEmp L employee_id (fun e =>
             { balance := e.balance - days, history := e.history ++ applied_dates }))

/-- `cancel_leave(employee_id, date)`. -/
def cancel_leave (employee_id date : String) (L : Ledger) : CancelLeaveResult × Ledger :=
  match _normalize_date date with
  | none =>
    ({ ok := false, message := ERROR ++ " Invalid date format. Use YYYY-MM-DD." }, L)
  | some norm_date =>
    match lookupEmp L employee_id with
    | none =>
      ({ ok := false,
         message := ERROR ++ " Employee `" ++ employee_id ++ "` not found." }, L)
    | some emp =>
      if emp.history.contains norm_date then
        ({ ok := true, employee_id := some employee_id,
           cancelled_date := some norm_date,
           message := SUCCESS ++ " Cancelled leave for *" ++ employee_id ++ "* on " ++
             norm_date ++ ". 🪙 1 day refunded. New balance: " ++
             toString (emp.balance + 1) ++ " day(s)." },
         updateEmp L employee_id (fun e =>
           { balance := e.balance + 1, history := e.history.erase norm_date }))
      else
        ({ ok := false,
           message := WARNING ++ " No leave found on " ++ norm_date ++ " for " ++
             employee_id ++ "." }, L)

/-- Python's `xs[:limit]` on a list, for an arbitrary (possibly negative)
`limit`: a nonnegative stop takes that many items, a negative stop drops the
last `-limit` items. -/
def pySliceTo (xs : List String) (limit : Int) : List String :=
  if 0 ≤ limit then xs.take limit.toNat
  else xs.take (xs.length - (-limit).toNat)

/-- `leave_history(employee_id, limit=20)`. -/
def leave_history (employee_id : String) (limit : Int) (L : Ledger) :
    LeaveHistoryResult × Ledger :=
  match lookupEmp L employee_id with
  | none =>
    ({ ok := false,
       message := ERROR ++ " Employee `" ++ employee_id ++ "` not found." }, L)
  | some emp =>
    let truncated := pySliceTo emp.history.reverse limit
    ({ ok := true, employee_id := some employee_id, history := some truncated,
       message := INFO ++ " Showing up to " ++ toString limit ++
         " past leave entries for *" ++ employee_id ++ "* (" ++
         toString truncated.length ++ " items)." }, L)

/-- `admin_adjust_balance(admin_id, employee_id, delta, note=None)`: add the
delta, then reset a negative balance to 0. -/
def admin_adjust_balance (admin_id employee_id : String) (delta : Int)
    (note : Option String) (L : Ledger) : AdminAdjustResult × Ledger :=
  match lookupEmp L employee_id with
  | none =>
    ({ ok := false,
       message := ERROR ++ " Employee `" ++ employee_id ++ "` not found." }, L)
  | some emp =>
    let new_balance := if emp.balance + delta < 0 then 0 else emp.balance + delta
    let note_text := match note with
      | some n => " Note: " ++ n ++ "."
      | none => ""
    ({ ok := true, employee_id := some employee_id, new_balance := some new_balance,
       message := SPARKLE ++ " Admin `" ++ admin_id ++ "` adjusted balance for *" ++
         employee_id ++ "* by " ++ toString delta ++ " days." ++ note_text ++
         " New balance: " ++ toString new_balance ++ " day(s)." },
     updateEmp L employee_id (fun e =>
       { e with balance := if e.balance + delta < 0 then 0 else e.balance + delta }))

/-- `list_employees()`. -/
def list_employees (L : Ledger) : ListEmployeesResult × Ledger :=
  let data := L.map (fun p =>
    EmployeeSummary.mk p.1 p.2.balance p.2.history.length)
  ({ ok := true, employees := some data,
     message := INFO ++ " " ++ toString data.length ++ " employees found." }, L)

/-! ### Operation sequences -/

/-- One tool invocation with its raw arguments. -/
inductive Op where
  | check_balance (employee_id : String)
  | apply_leave (employee_id : String) (date : String) (days : Int) (reason : Option String)
  | cancel_leave (employee_id : String) (date : String)
  | leave_history (employee_id : String) (limit : Int)
  | admin_adjust_balance (admin_id : String) (employee_id : String) (delta : Int) (note : Option String)
  | list_employees

/-- The ledger after one tool invocation. -/
def runOp : Op → Ledger → Ledger
  | .check_balance id, L => (check_balance id L).2
  | .apply_leave id d days r, L => (apply_leave id d days r L).2
  | .cancel_leave id d, L => (cancel_leave id d L).2
  | .leave_history id lim, L => (leave_history id lim L).2
  | .admin_adjust_balance a id delta n, L => (admin_adjust_balance a id delta n L).2
  | .list_employees, L => (list_employees L).2

/-- The success/failure indicator returned by one tool invocation. -/
def opOk : Op → Ledger → Bool
  | .check_balance id, L => (check_balance id L).1.ok
  | .apply_leave id d days r, L => (apply_leave id d days r L).1.ok
  | .cancel_leave id d, L => (cancel_leave id d L).1.ok
  | .leave_history id lim, L => (leave_history id lim L).1.ok
  | .admin_adjust_balance a id delta n, L => (admin_adjust_balance a id delta n L).1.ok
  | .list_employees, L => (list_employees L).1.ok

/-- The employee id an operation addresses (`list_employees` addresses none). -/
def opEmployee : Op → Option String
  | .check_balance id => some id
  | .apply_leave id _ _ _ => some id
  | .cancel_leave id _ => some id
  | .leave_history id _ => some id
  | .admin_adjust_balance _ id _ _ => some id
  | .list_employees => none

/-- The ledger after a finite sequence of tool invocations. -/
def runOps (ops : List Op) (L : Ledger) : Ledger :=
  ops.foldl (fun acc op => runOp op acc) L

/-- Every record in the ledger has a nonnegative balance. -/
def BalancesNonneg (L : Ledger) : Prop :=
  ∀ p ∈ L, 0 ≤ p.2.balance

/-! ### Lemmas about the association-list dictionary -/

theorem lookup_update_self (L : Ledger) (id : String) (f : Employee → Employee) :
    lookupEmp (updateEmp L id f) id = (lookupEmp L id).map f := by
  induction L with
  | nil => rfl
  | cons p rest ih =>
    by_cases h : p.1 == id
    · simp [updateEmp, lookupEmp, h]
    · simp [updateEmp, lookupEmp, h, ih]

theorem lookup_update_ne (L : Ledger) (id : String) (f : Employee → Employee)
    (id' : String) (h : id' ≠ id) :
    lookupEmp (updateEmp L id f) id' = lookupEmp L id' := by
  induction L with
  | nil => rfl
  | cons p rest ih =>
    by_cases hp : p.1 == id
    · have hp' : p.1 = id := by simpa using hp
      have : ¬ (p.1 == id') := by simp [hp']; exact fun hc => h hc.symm
      simp [updateEmp, lookupEmp, hp, this]
    · by_cases hq : p.1 == id'
      · simp [updateEmp, lookupEmp, hp, hq]
      · simp [updateEmp, lookupEmp, hp, hq, ih]

theorem keys_update (L : Ledger) (id : String) (f : Employee → Employee) :
    (updateEmp L id f).map Prod.fst = L.map Prod.fst := by
  induction L with
  | nil => rfl
  | cons p rest ih =>
    by_cases h : p.1 == id
    · simp [updateEmp, h]
    · simp [updateEmp, h, ih]

theorem mem_update (L : Ledger) (id : String) (f : Employee → Employee) :
    ∀ p ∈ updateEmp L id f, p ∈ L ∨ ∃ e, lookupEmp L id = some e ∧ p = (id, f e) := by
  induction L with
  | nil => intro p hp; cases hp
  | cons q rest ih =>
    intro p hp
    by_cases h : q.1 == id
    · have h' : q.1 = id := by simpa using h
      rw [updateEmp, if_pos h] at hp
      rcases List.mem_cons.mp hp with rfl | htail
      · exact Or.inr ⟨q.2, by simp [lookupEmp, h], by rw [h']⟩
      · exact Or.inl (List.mem_cons_of_mem _ htail)
    · rw [updateEmp, if_neg h] at hp
      rcases List.mem_cons.mp hp with rfl | htail
      · exact Or.inl (List.mem_cons_self _ _)
      · rcases ih p htail with hmem | ⟨e, he, hpe⟩
        · exact Or.inl (List.mem_cons_of_mem _ hmem)
        · exact Or.inr ⟨e, by simpa [lookupEmp, h] using he, hpe⟩

theorem lookup_mem (L : Ledger) (id : String) (e : Employee)
    (h : lookupEmp L id = some e) : ∃ k, (k, e) ∈ L := by
  induction L with
  | nil => cases h
  | cons p rest ih =>
    by_cases hp : p.1 == id
    · rw [lookupEmp, if_pos hp] at h
      exact ⟨p.1, by simp [← Option.some_inj.mp h]⟩
    · rw [lookupEmp, if_neg hp] at h
      rcases ih h with ⟨k, hk⟩
      exact ⟨k, List.mem_cons_of_mem _ hk⟩

/-! ### Lemmas about date parsing and formatting -/

theorem mkValidDate_eq_some {y m d : Nat} {t : Nat × Nat × Nat}
    (h : mkValidDate y m d = some t) :
    t = (y, m, d) ∧ 1 ≤ y ∧ y ≤ 9999 ∧ 1 ≤ m ∧ m ≤ 12 ∧ 1 ≤ d ∧ d ≤ daysInMonth y m := by
  unfold mkValidDate at h
  split at h
  · rename_i hc
    exact ⟨(Option.some_inj.mp h).symm, hc.1, hc.2.1, hc.2.2.1, hc.2.2.2.1,
      hc.2.2.2.2.1, hc.2.2.2.2.2⟩
  · cases h

theorem parseDate_bounds {s : String} {y m d : Nat}
    (h : parseDate s = some (y, m, d)) :
    1 ≤ y ∧ y ≤ 9999 ∧ 1 ≤ m ∧ m ≤ 12 ∧ 1 ≤ d ∧ d ≤ daysInMonth y m := by
  unfold parseDate parseDateChars at h
  split at h
  · split at h
    · obtain ⟨ht, hb⟩ := mkValidDate_eq_some h
      obtain ⟨rfl, rfl, rfl⟩ := Prod.mk.injEq .. ▸ (by exact ⟨congrArg Prod.fst ht, congrArg (fun t => t.2.1) ht, congrArg (fun t => t.2.2) ht⟩ : y = _ ∧ m = _ ∧ d = _)
      exact hb
    · cases h
  · split at h
    · obtain ⟨ht, hb⟩ := mkValidDate_eq_some h
      obtain ⟨rfl, rfl, rfl⟩ := Prod.mk.injEq .. ▸ (by exact ⟨congrArg Prod.fst ht, congrArg (fun t => t.2.1) ht, congrArg (fun t => t.2.2) ht⟩ : y = _ ∧ m = _ ∧ d = _)
      exact hb
    · split at h
      · obtain ⟨ht, hb⟩ := mkValidDate_eq_some h
        obtain ⟨rfl, rfl, rfl⟩ := Prod.mk.injEq .. ▸ (by exact ⟨congrArg Prod.fst ht, congrArg (fun t => t.2.1) ht, congrArg (fun t => t.2.2) ht⟩ : y = _ ∧ m = _ ∧ d = _)
        exact hb
      · cases h
  · split at h
    · obtain ⟨ht, hb⟩ := mkValidDate_eq_some h
      obtain ⟨rfl, rfl, rfl⟩ := Prod.mk.injEq .. ▸ (by exact ⟨congrArg Prod.fst ht, congrArg (fun t => t.2.1) ht, congrArg (fun t => t.2.2) ht⟩ : y = _ ∧ m = _ ∧ d = _)
      exact hb
    · cases h
  · cases h

theorem daysInMonth_le (y m : Nat) : daysInMonth y m ≤ 31 := by
  unfold daysInMonth
  split
  · split <;> omega
  · split <;> omega

theorem digitChar_mod_isDigit (n : Nat) : (digitChar (n % 10)).isDigit = true := by
  have h : n % 10 < 10 := Nat.mod_lt _ (by norm_num)
  interval_cases hk : (n % 10) <;> decide

theorem digitVal_digitChar_mod (n : Nat) : digitVal (digitChar (n % 10)) = n % 10 := by
  have h : n % 10 < 10 := Nat.mod_lt _ (by norm_num)
  interval_cases hk : (n % 10) <;> decide

theorem parseDate_fmtDate {y m d : Nat} (h1 : 1 ≤ y) (h2 : y ≤ 9999)
    (h3 : 1 ≤ m) (h4 : m ≤ 12) (h5 : 1 ≤ d) (h6 : d ≤ daysInMonth y m) :
    parseDate (fmtDate y m d) = some (y, m, d) := by
  have hd31 : d ≤ 31 := le_trans h6 (daysInMonth_le y m)
  show parseDateChars (fmtDate y m d).toList = some (y, m, d)
  have hlist : (fmtDate y m d).toList =
      [digitChar (y / 1000 % 10), digitChar (y / 100 % 10), digitChar (y / 10 % 10),
       digitChar (y % 10), '-', digitChar (m / 10 % 10), digitChar (m % 10), '-',
       digitChar (d / 10 % 10), digitChar (d % 10)] := rfl
  rw [hlist]
  rw [parseDateChars]
  simp only [digitChar_mod_isDigit, digitVal_digitChar_mod, beq_self_eq_true,
    Bool.and_true, Bool.true_and, if_true]
  have ey : 1000 * (y / 1000 % 10) + 100 * (y / 100 % 10) + 10 * (y / 10 % 10) + y % 10 = y := by
    omega
  have em : 10 * (m / 10 % 10) + m % 10 = m := by omega
  have ed : 10 * (d / 10 % 10) + d % 10 = d := by omega
  rw [ey, em, ed]
  unfold mkValidDate
  rw [if_pos ⟨h1, h2, h3, h4, h5, h6⟩]

theorem normalize_eq_some {s nd : String} (h : _normalize_date s = some nd) :
    ∃ y m d, parseDate s = some (y, m, d) ∧ nd = fmtDate y m d ∧
      1 ≤ y ∧ y ≤ 9999 ∧ 1 ≤ m ∧ m ≤ 12 ∧ 1 ≤ d ∧ d ≤ daysInMonth y m ∧
      parseDate nd = some (y, m, d) := by
  unfold _normalize_date at h
  split at h
  · rename_i y m d heq
    obtain ⟨h1, h2, h3, h4, h5, h6⟩ := parseDate_bounds heq
    obtain rfl : fmtDate y m d = nd := Option.some_inj.mp h
    exact ⟨y, m, d, heq, rfl, h1, h2, h3, h4, h5, h6,
      parseDate_fmtDate h1 h2 h3 h4 h5 h6⟩
  · cases h

/-! ### Lemmas about the date expansion of `apply_leave` -/

theorem expandDates_of_parse {nd : String} {y m d : Nat}
    (hp : parseDate nd = some (y, m, d)) (N : Int) :
    expandDates nd N =
      if d + (N.toNat - 1) ≤ daysInMonth y m then
        (List.range N.toNat).map (fun i => fmtDate y m (d + i))
      else [nd] := by
  unfold expandDates
  rw [hp]

theorem expandDates_one {nd : String} {y m d : Nat}
    (hp : parseDate nd = some (y, m, d)) (hd : d ≤ daysInMonth y m)
    (hfmt : fmtDate y m d = nd) : expandDates nd 1 = [nd] := by
  rw [expandDates_of_parse hp]
  have : (1 : Int).toNat = 1 := rfl
  rw [this, if_pos (by omega)]
  simp [List.range_succ, hfmt]

theorem mem_expandDates {nd : String} {y m d : Nat}
    (hp : parseDate nd = some (y, m, d)) (hfmt : fmtDate y m d = nd)
    {N : Int} (hN : 1 ≤ N) : nd ∈ expandDates nd N := by
  rw [expandDates_of_parse hp]
  split
  · refine List.mem_map.mpr ⟨0, List.mem_range.mpr (by omega), ?_⟩
    simpa using hfmt
  · simp

/-! ### Per-operation behavior lemmas -/

theorem check_balance_snd (id : String) (L : Ledger) : (check_balance id L).2 = L := by
  unfold check_balance
  cases lookupEmp L id <;> rfl

theorem check_balance_ok (id : String) (L : Ledger) :
    (check_balance id L).1.ok = (lookupEmp L id).isSome := by
  unfold check_balance
  cases lookupEmp L id <;> rfl

theorem leave_history_snd (id : String) (lim : Int) (L : Ledger) :
    (leave_history id lim L).2 = L := by
  unfold leave_history
  cases lookupEmp L id <;> rfl

theorem leave_history_ok (id : String) (lim : Int) (L : Ledger) :
    (leave_history id lim L).1.ok = (lookupEmp L id).isSome := by
  unfold leave_history
  cases lookupEmp L id <;> rfl

theorem list_employees_snd (L : Ledger) : (list_employees L).2 = L := rfl

theorem apply_leave_cases (employee_id date : String) (days : Int)
    (reason : Option String) (L : Ledger) :
    ((apply_leave employee_id date days reason L).1.ok = false ∧
      (apply_leave employee_id date days reason L).2 = L) ∨
    ((apply_leave employee_id date days reason L).1.ok = true ∧ 0 < days ∧
      ∃ emp dates, lookupEmp L employee_id = some emp ∧ days ≤ emp.balance ∧
        (apply_leave employee_id date days reason L).2 = updateEmp L employee_id
          (fun e => { balance := e.balance - days, history := e.history ++ dates })) := by
  unfold apply_leave
  cases hn : _normalize_date date with
  | none => exact Or.inl ⟨rfl, rfl⟩
  | some nd =>
    dsimp only
    by_cases hdays : days ≤ 0
    · rw [if_pos hdays]
      exact Or.inl ⟨rfl, rfl⟩
    · rw [if_neg hdays]
      cases he : lookupEmp L employee_id with
      | none => exact Or.inl ⟨rfl, rfl⟩
      | some emp =>
        dsimp only
        by_cases hb : days > emp.balance
        · rw [if_pos hb]
          exact Or.inl ⟨rfl, rfl⟩
        · rw [if_neg hb]
          exact Or.inr ⟨rfl, by omega, emp, expandDates nd days, rfl, by omega, rfl⟩

theorem cancel_leave_cases (employee_id date : String) (L : Ledger) :
    ((cancel_leave employee_id date L).1.ok = false ∧
      (cancel_leave employee_id date L).2 = L) ∨
    ((cancel_leave employee_id date L).1.ok = true ∧
      ∃ emp nd, _normalize_date date = some nd ∧ lookupEmp L employee_id = some emp ∧
        emp.history.contains nd = true ∧
        (cancel_leave employee_id date L).2 = updateEmp L employee_id
          (fun e => { balance := e.balance + 1, history := e.history.erase nd })) := by
  unfold cancel_leave
  cases hn : _normalize_date date with
  | none => exact Or.inl ⟨rfl, rfl⟩
  | some nd =>
    cases he : lookupEmp L employee_id with
    | none => exact Or.inl ⟨rfl, rfl⟩
    | some emp =>
      dsimp only
      by_cases hc : emp.history.contains nd
      · rw [if_pos hc]
        exact Or.inr ⟨rfl, emp, nd, rfl, rfl, hc, rfl⟩
      · rw [if_neg hc]
        exact Or.inl ⟨rfl, rfl⟩

theorem admin_adjust_cases (admin_id employee_id : String) (delta : Int)
    (note : Option String) (L : Ledger) :
    ((admin_adjust_balance admin_id employee_id delta note L).1.ok = false ∧
      (admin_adjust_balance admin_id employee_id delta note L).2 = L) ∨
    ((admin_adjust_balance admin_id employee_id delta note L).1.ok = true ∧
      ∃ emp, lookupEmp L employee_id = some emp ∧
        (admin_adjust_balance admin_id employee_id delta note L).2 =
          updateEmp L employee_id (fun e =>
            { e with balance := if e.balance + delta < 0 then 0 else e.balance + delta })) := by
  unfold admin_adjust_balance
  cases he : lookupEmp L employee_id with
  | none => exact Or.inl ⟨rfl, rfl⟩
  | some emp => exact Or.inr ⟨rfl, emp, rfl, rfl⟩

theorem apply_leave_success {L : Ledger} {employee_id date : String} {emp : Employee}
    {nd : String} {days : Int}
    (hemp : lookupEmp L employee_id = some emp) (hnd : _normalize_date date = some nd)
    (hdays : 1 ≤ days) (hbal : days ≤ emp.balance) (reason : Option String) :
    (apply_leave employee_id date days reason L).1.ok = true ∧
    (apply_leave employee_id date days reason L).1.applied_dates =
      some (expandDates nd days) ∧
    (apply_leave employee_id date days reason L).1.new_balance =
      some (emp.balance - days) ∧
    (apply_leave employee_id date days reason L).2 =
      updateEmp L employee_id (fun e =>
        { balance := e.balance - days, history := e.history ++ expandDates nd days }) := by
  unfold apply_leave
  rw [hnd]
  dsimp only
  rw [if_neg (by omega : ¬ days ≤ 0), hemp]
  dsimp only
  rw [if_neg (by omega : ¬ days > emp.balance)]
  exact ⟨rfl, rfl, rfl, rfl⟩

theorem cancel_leave_success {L : Ledger} {employee_id date : String} {emp : Employee}
    {nd : String}
    (hemp : lookupEmp L employee_id = some emp) (hnd : _normalize_date date = some nd)
    (hcont : emp.history.contains nd = true) :
    (cancel_leave employee_id date L).1.ok = true ∧
    (cancel_leave employee_id date L).1.cancelled_date = some nd ∧
    (cancel_leave employee_id date L).2 =
      updateEmp L employee_id (fun e =>
        { balance := e.balance + 1, history := e.history.erase nd }) := by
  unfold cancel_leave
  rw [hnd]
  dsimp only
  rw [hemp]
  dsimp only
  rw [if_pos hcont]
  exact ⟨rfl, rfl, rfl⟩

theorem admin_adjust_success {L : Ledger} {admin_id employee_id : String}
    {delta : Int} {note : Option String} {emp : Employee}
    (hemp : lookupEmp L employee_id = some emp) :
    (admin_adjust_balance admin_id employee_id delta note L).1.ok = true ∧
    (admin_adjust_balance admin_id employee_id delta note L).1.new_balance =
      some (if emp.balance + delta < 0 then 0 else emp.balance + delta) ∧
    (admin_adjust_balance admin_id employee_id delta note L).2 =
      updateEmp L employee_id (fun e =>
        { e with balance := if e.balance + delta < 0 then 0 else e.balance + delta }) := by
  unfold admin_adjust_balance
  rw [hemp]
  dsimp only
  exact ⟨rfl, rfl, rfl⟩

/-! ### Preservation of the balance invariant -/

theorem balancesNonneg_update {L : Ledger} {id : String} {f : Employee → Employee}
    (h : BalancesNonneg L)
    (hf : ∀ e, lookupEmp L id = some e → 0 ≤ (f e).balance) :
    BalancesNonneg (updateEmp L id f) := by
  intro p hp
  rcases mem_update L id f p hp with hmem | ⟨e, he, rfl⟩
  · exact h p hmem
  · exact hf e he

theorem balancesNonneg_runOp {L : Ledger} (h : BalancesNonneg L) (op : Op) :
    BalancesNonneg (runOp op L) := by
  cases op with
  | check_balance id =>
    simpa only [runOp, check_balance_snd] using h
  | leave_history id lim =>
    simpa only [runOp, leave_history_snd] using h
  | list_employees =>
    simpa only [runOp, list_employees_snd] using h
  | apply_leave id d days r =>
    show BalancesNonneg (apply_leave id d days r L).2
    rcases apply_leave_cases id d days r L with ⟨_, heq⟩ | ⟨_, hpos, emp, dates, hemp, hbal, heq⟩
    · rw [heq]; exact h
    · rw [heq]
      refine balancesNonneg_update h ?_
      intro e he
      obtain rfl : emp = e := Option.some_inj.mp (hemp ▸ he)
      dsimp only
      omega
  | cancel_leave id d =>
    show BalancesNonneg (cancel_leave id d L).2
    rcases cancel_leave_cases id d L with ⟨_, heq⟩ | ⟨_, emp, nd, hnd, hemp, hcont, heq⟩
    · rw [heq]; exact h
    · rw [heq]
      refine balancesNonneg_update h ?_
      intro e he
      rcases lookup_mem L id e he with ⟨k, hk⟩
      have := h (k, e) hk
      dsimp only at this ⊢
      omega
  | admin_adjust_balance a id delta n =>
    show BalancesNonneg (admin_adjust_balance a id delta n L).2
    rcases admin_adjust_cases a id delta n L with ⟨_, heq⟩ | ⟨_, emp, hemp, heq⟩
    · rw [heq]; exact h
    · rw [heq]
      refine balancesNonneg_update h ?_
      intro e _
      dsimp only
      split <;> omega

/-- C1: starting from the seeded ledger, after every finite sequence of
operations (with arbitrary arguments) every employee's balance is still
nonnegative, hence `balance ≥ 0` holds after each operation of any run. -/
theorem C1_balance_nonneg (ops : List Op) : BalancesNonneg (runOps ops initialLedger) := by
  have hinit : BalancesNonneg initialLedger := by unfold BalancesNonneg; decide
  suffices hstep : ∀ L, BalancesNonneg L → BalancesNonneg (runOps ops L) from hstep _ hinit
  induction ops with
  | nil => exact fun L h => h
  | cons op rest ih => exact fun L h => ih _ (balancesNonneg_runOp h op)

/-- C3: whenever an operation reports failure (`ok = false` in its structured
result, the embedding of every error kind), the ledger is left unchanged; no
operation raises to its caller (each tool is a total function into a result
dictionary carrying the success/failure flag). -/
theorem C3_failure_leaves_ledger_unchanged (op : Op) (L : Ledger)
    (h : opOk op L = false) : runOp op L = L := by
  cases op with
  | check_balance id => exact check_balance_snd id L
  | leave_history id lim => exact leave_history_snd id lim L
  | list_employees => rfl
  | apply_leave id d days r =>
    show (apply_leave id d days r L).2 = L
    rcases apply_leave_cases id d days r L with ⟨_, heq⟩ | ⟨hok, _⟩
    · exact heq
    · rw [show opOk (Op.apply_leave id d days r) L = (apply_leave id d days r L).1.ok from rfl,
        hok] at h
      cases h
  | cancel_leave id d =>
    show (cancel_leave id d L).2 = L
    rcases cancel_leave_cases id d L with ⟨_, heq⟩ | ⟨hok, _⟩
    · exact heq
    · rw [show opOk (Op.cancel_leave id d) L = (cancel_leave id d L).1.ok from rfl, hok] at h
      cases h
  | admin_adjust_balance a id delta n =>
    show (admin_adjust_balance a id delta n L).2 = L
    rcases admin_adjust_cases a id delta n L with ⟨_, heq⟩ | ⟨hok, _⟩
    · exact heq
    · rw [show opOk (Op.admin_adjust_balance a id delta n) L =
          (admin_adjust_balance a id delta n L).1.ok from rfl, hok] at h
      cases h

/-- Witness for C3 at a concrete failing call (invalid date). -/
theorem C3_witness :
    runOp (Op.apply_leave "E001" "not-a-date" 5 none) initialLedger = initialLedger :=
  C3_failure_leaves_ledger_unchanged (Op.apply_leave "E001" "not-a-date" 5 none)
    initialLedger (by decide)

/-- C9: the read-only operations return the ledger unchanged; every operation
preserves the record of every employee other than the addressed one; no
operation adds or removes a dictionary key; and an operation addressing an
unknown identifier fails and leaves the ledger unchanged (so no record is
ever created implicitly). -/
theorem C9_frame_conditions :
    (∀ (id : String) (L : Ledger), (check_balance id L).2 = L) ∧
    (∀ (id : String) (limit : Int) (L : Ledger), (leave_history id limit L).2 = L) ∧
    (∀ L : Ledger, (list_employees L).2 = L) ∧
    (∀ (op : Op) (L : Ledger) (id' : String), opEmployee op ≠ some id' →
      lookupEmp (runOp op L) id' = lookupEmp L id') ∧
    (∀ (op : Op) (L : Ledger), (runOp op L).map Prod.fst = L.map Prod.fst) ∧
    (∀ (op : Op) (L : Ledger) (eid : String), opEmployee op = some eid →
      lookupEmp L eid = none → opOk op L = false ∧ runOp op L = L) := by
  refine ⟨check_balance_snd, leave_history_snd, list_employees_snd, ?_, ?_, ?_⟩
  · intro op L id' hne
    cases op with
    | check_balance id => rw [show runOp (Op.check_balance id) L = (check_balance id L).2 from rfl,
        check_balance_snd]
    | leave_history id lim => rw [show runOp (Op.leave_history id lim) L =
        (leave_history id lim L).2 from rfl, leave_history_snd]
    | list_employees => rfl
    | apply_leave id d days r =>
      show lookupEmp (apply_leave id d days r L).2 id' = lookupEmp L id'
      rcases apply_leave_cases id d days r L with ⟨_, heq⟩ | ⟨_, _, emp, dates, _, _, heq⟩
      · rw [heq]
      · rw [heq]
        exact lookup_update_ne L id _ id' (fun hc => hne (by rw [hc]; rfl))
    | cancel_leave id d =>
      show lookupEmp (cancel_leave id d L).2 id' = lookupEmp L id'
      rcases cancel_leave_cases id d L with ⟨_, heq⟩ | ⟨_, emp, nd, _, _, _, heq⟩
      · rw [heq]
      · rw [heq]
        exact lookup_update_ne L id _ id' (fun hc => hne (by rw [hc]; rfl))
    | admin_adjust_balance a id delta n =>
      show lookupEmp (admin_adjust_balance a id delta n L).2 id' = lookupEmp L id'
      rcases admin_adjust_cases a id delta n L with ⟨_, heq⟩ | ⟨_, emp, _, heq⟩
      · rw [heq]
      · rw [heq]
        exact lookup_update_ne L id _ id' (fun hc => hne (by rw [hc]; rfl))
  · intro op L
    cases op with
    | check_balance id => rw [show runOp (Op.check_balance id) L = (check_balance id L).2 from rfl,
        check_balance_snd]
    | leave_history id lim => rw [show runOp (Op.leave_history id lim) L =
        (leave_history id lim L).2 from rfl, leave_history_snd]
    | list_employees => rfl
    | apply_leave id d days r =>
      show (apply_leave id d days r L).2.map Prod.fst = L.map Prod.fst
      rcases apply_leave_cases id d days r L with ⟨_, heq⟩ | ⟨_, _, emp, dates, _, _, heq⟩
      · rw [heq]
      · rw [heq, keys_update]
    | cancel_leave id d =>
      show (cancel_leave id d L).2.map Prod.fst = L.map Prod.fst
      rcases cancel_leave_cases id d L with ⟨_, heq⟩ | ⟨_, emp, nd, _, _, _, heq⟩
      · rw [heq]
      · rw [heq, keys_update]
    | admin_adjust_balance a id delta n =>
      show (admin_adjust_balance a id delta n L).2.map Prod.fst = L.map Prod.fst
      rcases admin_adjust_cases a id delta n L with ⟨_, heq⟩ | ⟨_, emp, _, heq⟩
      · rw [heq]
      · rw [heq, keys_update]
  · intro op L eid heid hnone
    cases op with
    | check_balance id =>
      obtain rfl : id = eid := Option.some_inj.mp heid
      refine ⟨?_, check_balance_snd id L⟩
      rw [show opOk (Op.check_balance id) L = (check_balance id L).1.ok from rfl,
        check_balance_ok, hnone]
      rfl
    | leave_history id lim =>
      obtain rfl : id = eid := Option.some_inj.mp heid
      refine ⟨?_, leave_history_snd id lim L⟩
      rw [show opOk (Op.leave_history id lim) L = (leave_history id lim L).1.ok from rfl,
        leave_history_ok, hnone]
      rfl
    | list_employees => cases heid
    | apply_leave id d days r =>
      obtain rfl : id = eid := Option.some_inj.mp heid
      rcases apply_leave_cases id d days r L with ⟨hok, heq⟩ | ⟨_, _, emp, dates, hemp, _, _⟩
      · exact ⟨hok, heq⟩
      · rw [hnone] at hemp
        cases hemp
    | cancel_leave id d =>
      obtain rfl : id = eid := Option.some_inj.mp heid
      rcases cancel_leave_cases id d L with ⟨hok, heq⟩ | ⟨_, emp, nd, _, hemp, _, _⟩
      · exact ⟨hok, heq⟩
      · rw [hnone] at hemp
        cases hemp
    | admin_adjust_balance a id delta n =>
      obtain rfl : id = eid := Option.some_inj.mp heid
      rcases admin_adjust_cases a id delta n L with ⟨hok, heq⟩ | ⟨_, emp, hemp, _⟩
      · exact ⟨hok, heq⟩
      · rw [hnone] at hemp
        cases hemp

/-- Witness for C9 at a concrete unknown identifier. -/
theorem C9_witness :
    opOk (Op.check_balance "E999") initialLedger = false ∧
    runOp (Op.check_balance "E999") initialLedger = initialLedger :=
  C9_frame_conditions.2.2.2.2.2 (Op.check_balance "E999") initialLedger "E999" rfl (by decide)

/-- C4: a successful `apply_leave(id, d, N)` with `N ≥ 1` followed by
`cancel_leave(id, d)` succeeds, leaves the balance at `pre_apply − N + 1`
(so for `N = 1` the pre-apply balance is restored), and removes exactly one
occurrence of the normalized date from the post-apply history (so for
`N = 1` the pre-apply occurrence count is restored). -/
theorem C4_apply_cancel (L : Ledger) (employee_id date : String) (emp : Employee)
    (N : Int) (nd : String)
    (hemp : lookupEmp L employee_id = some emp)
    (hnd : _normalize_date date = some nd)
    (hN : 1 ≤ N) (hbal : N ≤ emp.balance) :
    (apply_leave employee_id date N none L).1.ok = true ∧
    (cancel_leave employee_id date (apply_leave employee_id date N none L).2).1.ok = true ∧
    ∃ empA empF : Employee,
      lookupEmp (apply_leave employee_id date N none L).2 employee_id = some empA ∧
      lookupEmp (cancel_leave employee_id date
        (apply_leave employee_id date N none L).2).2 employee_id = some empF ∧
      empF.balance = emp.balance - N + 1 ∧
      empF.history.count nd + 1 = empA.history.count nd ∧
      (N = 1 → empF.balance = emp.balance ∧ empF.history.count nd = emp.history.count nd) := by
  obtain ⟨y, m, d, hp, hfmt, h1, h2, h3, h4, h5, h6, hpnd⟩ := normalize_eq_some hnd
  obtain ⟨hok1, hdates, hnewbal, hL1⟩ := apply_leave_success hemp hnd hN hbal none
  have hndA : nd ∈ expandDates nd N := mem_expandDates hpnd hfmt.symm hN
  have hlook1 : lookupEmp (apply_leave employee_id date N none L).2 employee_id =
      some { balance := emp.balance - N, history := emp.history ++ expandDates nd N } := by
    rw [hL1, lookup_update_self, hemp]
    rfl
  have hmemA : nd ∈ emp.history ++ expandDates nd N := List.mem_append_right _ hndA
  have hcont : (Employee.mk (emp.balance - N)
      (emp.history ++ expandDates nd N)).history.contains nd = true :=
    List.elem_iff.mpr hmemA
  obtain ⟨hok2, hcanc, hL2⟩ := cancel_leave_success hlook1 hnd hcont
  have hlook2 : lookupEmp (cancel_leave employee_id date
      (apply_leave employee_id date N none L).2).2 employee_id =
      some { balance := emp.balance - N + 1,
             history := (emp.history ++ expandDates nd N).erase nd } := by
    rw [hL2, lookup_update_self, hlook1]
    rfl
  have hposA : 0 < (emp.history ++ expandDates nd N).count nd :=
    List.count_pos_iff.mpr hmemA
  have hcount : ((emp.history ++ expandDates nd N).erase nd).count nd + 1 =
      (emp.history ++ expandDates nd N).count nd := by
    rw [List.count_erase_self]
    omega
  refine ⟨hok1, hok2, _, _, hlook1, hlook2, rfl, hcount, ?_⟩
  rintro rfl
  have hone : expandDates nd 1 = [nd] := expandDates_one hpnd h6 hfmt.symm
  constructor
  · show emp.balance - 1 + 1 = emp.balance
    omega
  · show ((emp.history ++ expandDates nd 1).erase nd).count nd = emp.history.count nd
    rw [hone, List.count_erase_self, List.count_append]
    simp

/-- Witness for C4: `apply_leave("E001","2025-03-01",2)` then
`cancel_leave("E001","2025-03-01")` on the seeded ledger. -/
theorem C4_witness :
    (apply_leave "E001" "2025-03-01" 2 none initialLedger).1.ok = true ∧
    (cancel_leave "E001" "2025-03-01"
      (apply_leave "E001" "2025-03-01" 2 none initialLedger).2).1.ok = true ∧
    ∃ empA empF : Employee,
      lookupEmp (apply_leave "E001" "2025-03-01" 2 none initialLedger).2 "E001" = some empA ∧
      lookupEmp (cancel_leave "E001" "2025-03-01"
        (apply_leave "E001" "2025-03-01" 2 none initialLedger).2).2 "E001" = some empF ∧
      empF.balance = (18 : Int) - 2 + 1 ∧
      empF.history.count "2025-03-01" + 1 = empA.history.count "2025-03-01" ∧
      ((2 : Int) = 1 → empF.balance = 18 ∧
        empF.history.count "2025-03-01" =
          (["2024-12-25", "2025-01-01"] : List String).count "2025-03-01") :=
  C4_apply_cancel initialLedger "E001" "2025-03-01"
    { balance := 18, history := ["2024-12-25", "2025-01-01"] } 2 "2025-03-01"
    (by decide) (by decide) (by decide) (by decide)

/-- C10: when the naive per-day expansion of a successful `apply_leave` hits
an invalid day of month (start day + i beyond the month length), the
operation still reports success, the balance is decremented by the full
`days`, and exactly one entry — the normalized start date — is appended to
the history and returned as `applied_dates`. -/
theorem C10_fallback_single_date (L : Ledger) (employee_id date : String)
    (days : Int) (reason : Option String) (emp : Employee) (nd : String)
    (y m d : Nat)
    (hemp : lookupEmp L employee_id = some emp)
    (hnd : _normalize_date date = some nd)
    (hdays : 1 ≤ days) (hbal : days ≤ emp.balance)
    (hparse : parseDate nd = some (y, m, d))
    (hover : daysInMonth y m < d + (days.toNat - 1)) :
    (apply_leave employee_id date days reason L).1.ok = true ∧
    (apply_leave employee_id date days reason L).1.applied_dates = some [nd] ∧
    (apply_leave employee_id date days reason L).1.new_balance = some (emp.balance - days) ∧
    (apply_leave employee_id date days reason L).2 =
      updateEmp L employee_id (fun e =>
        { balance := e.balance - days, history := e.history ++ [nd] }) := by
  obtain ⟨hok, hdates, hnewbal, hL1⟩ := apply_leave_success hemp hnd hdays hbal reason
  have hexp : expandDates nd days = [nd] := by
    rw [expandDates_of_parse hparse, if_neg (by omega)]
  rw [hexp] at hdates hL1
  exact ⟨hok, hdates, hnewbal, hL1⟩

/-- Witness for C10: a three-day application starting 2025-01-30 overflows
January. -/
theorem C10_witness :
    (apply_leave "E001" "2025-01-30" 3 none initialLedger).1.ok = true ∧
    (apply_leave "E001" "2025-01-30" 3 none initialLedger).1.applied_dates =
      some ["2025-01-30"] ∧
    (apply_leave "E001" "2025-01-30" 3 none initialLedger).1.new_balance =
      some ((18 : Int) - 3) ∧
    (apply_leave "E001" "2025-01-30" 3 none initialLedger).2 =
      updateEmp initialLedger "E001" (fun e =>
        { balance := e.balance - 3, history := e.history ++ ["2025-01-30"] }) :=
  C10_fallback_single_date initialLedger "E001" "2025-01-30" 3 none
    { balance := 18, history := ["2024-12-25", "2025-01-01"] } "2025-01-30" 2025 1 30
    (by decide) (by decide) (by decide) (by decide) (by decide) (by decide)

/-- C2 (code bug): a successful two-day application starting 2025-01-31 does
not expand to two consecutive calendar dates with month rollover; the naive
day increment raises, the fallback records only the start date, yet the
balance is still decremented by 2 and the call reports success. -/
theorem C2_naive_expansion_bug :
    (apply_leave "E001" "2025-01-31" 2 none initialLedger).1.ok = true ∧
    (apply_leave "E001" "2025-01-31" 2 none initialLedger).1.applied_dates =
      some ["2025-01-31"] ∧
    (apply_leave "E001" "2025-01-31" 2 none initialLedger).1.new_balance = some 16 ∧
    (apply_leave "E001" "2025-01-31" 2 none initialLedger).2 =
      [("E001", Employee.mk 16 ["2024-12-25", "2025-01-01", "2025-01-31"]),
       ("E002", Employee.mk 20 []),
       ("Prakash", Employee.mk 20 [])] := by
  decide

/-! ### Administrative adjustment (C5) -/

/-- The full success result of `admin_adjust_balance`, as a function of the
caller-visible inputs and the (possibly clamped) resulting balance. -/
def adminAdjustOkResult (admin_id employee_id : String) (delta : Int)
    (note : Option String) (nb : Int) : AdminAdjustResult :=
  { ok := true, employee_id := some employee_id, new_balance := some nb,
    message := SPARKLE ++ " Admin `" ++ admin_id ++ "` adjusted balance for *" ++
      employee_id ++ "* by " ++ toString delta ++ " days." ++
      (match note with
        | some n => " Note: " ++ n ++ "."
        | none => "") ++
      " New balance: " ++ toString nb ++ " day(s)." }

theorem admin_adjust_fst {L : Ledger} {admin_id employee_id : String}
    {delta : Int} {note : Option String} {emp : Employee}
    (hemp : lookupEmp L employee_id = some emp) :
    (admin_adjust_balance admin_id employee_id delta note L).1 =
      adminAdjustOkResult admin_id employee_id delta note
        (if emp.balance + delta < 0 then 0 else emp.balance + delta) := by
  unfold admin_adjust_balance
  rw [hemp]
  rfl

/-- A ledger differing from the seed only in E002's starting balance
(10 instead of 20); used to show a clamped and an unclamped adjustment
return identical responses. -/
def ledgerB : Ledger :=
  [("E001", Employee.mk 18 ["2024-12-25", "2025-01-01"]),
   ("E002", Employee.mk 10 []),
   ("Prakash", Employee.mk 20 [])]

/-- C5 counterexample: `admin_adjust_balance("admin","E002",-20)` returns the
very same result dictionary on a ledger where the clamp fires (balance 10)
and on one where it does not (balance 20), so the caller is not informed
that the clamp occurred. -/
theorem C5_counterexample_clamp_not_reported :
    (admin_adjust_balance "admin" "E002" (-20) none initialLedger).1 =
      (admin_adjust_balance "admin" "E002" (-20) none ledgerB).1 ∧
    lookupEmp initialLedger "E002" = some (Employee.mk 20 []) ∧
    ¬ ((20 : Int) + (-20) < 0) ∧
    lookupEmp ledgerB "E002" = some (Employee.mk 10 []) ∧
    ((10 : Int) + (-20) < 0) := by
  decide

/-- C5 amended: for every known employee and every integer delta,
`admin_adjust_balance` succeeds with new balance `max (old + delta) 0` and
never reports an insufficient balance; but the response is a function of the
clamped result alone (two ledgers with the same clamped result get identical
responses), so the caller is not told whether the clamp occurred — it is only
logged server-side. -/
theorem C5_adjust_clamps (L : Ledger) (admin_id employee_id : String)
    (delta : Int) (note : Option String) (emp : Employee)
    (hemp : lookupEmp L employee_id = some emp) :
    (admin_adjust_balance admin_id employee_id delta note L).1.ok = true ∧
    (admin_adjust_balance admin_id employee_id delta note L).1.new_balance =
      some (max (emp.balance + delta) 0) ∧
    (admin_adjust_balance admin_id employee_id delta note L).2 =
      updateEmp L employee_id (fun e =>
        { e with balance := if e.balance + delta < 0 then 0 else e.balance + delta }) ∧
    (∀ (L' : Ledger) (emp' : Employee), lookupEmp L' employee_id = some emp' →
      max (emp'.balance + delta) 0 = max (emp.balance + delta) 0 →
      (admin_adjust_balance admin_id employee_id delta note L').1 =
        (admin_adjust_balance admin_id employee_id delta note L).1) := by
  obtain ⟨hok, hnb, hL⟩ :=
    @admin_adjust_success L admin_id employee_id delta note emp hemp
  have hmax : (if emp.balance + delta < 0 then 0 else emp.balance + delta) =
      max (emp.balance + delta) 0 := by
    split <;> omega
  refine ⟨hok, by rw [hnb, hmax], hL, ?_⟩
  intro L' emp' hemp' hsame
  have hv : (if emp'.balance + delta < 0 then 0 else emp'.balance + delta) =
      (if emp.balance + delta < 0 then 0 else emp.balance + delta) := by
    split <;> split <;> omega
  rw [admin_adjust_fst hemp', admin_adjust_fst hemp, hv]

/-- Witness for C5 (amended) at `admin_adjust_balance("admin","E002",-25)` on
the seeded ledger: success with the balance clamped to 0. -/
theorem C5_witness :
    (admin_adjust_balance "admin" "E002" (-25) none initialLedger).1.ok = true ∧
    (admin_adjust_balance "admin" "E002" (-25) none initialLedger).1.new_balance =
      some 0 := by
  have h := C5_adjust_clamps initialLedger "admin" "E002" (-25) none
    (Employee.mk 20 []) (by decide)
  refine ⟨h.1, ?_⟩
  rw [h.2.1]
  rfl

/-! ### History listing (C8) -/

/-- C8 counterexample: with the negative limit −1, `leave_history` for E001
returns one entry (Python's `xs[:-1]` drops only the last element), so the
result does not have at most `limit` entries. -/
theorem C8_counterexample_negative_limit :
    (leave_history "E001" (-1) initialLedger).1.ok = true ∧
    (leave_history "E001" (-1) initialLedger).1.history = some ["2025-01-01"] ∧
    ¬ (((["2025-01-01"] : List String).length : Int) ≤ -1) := by
  decide

/-- C8 amended: for every known employee and every limit `≥ 0`,
`leave_history` returns exactly the first `limit` entries of the reversed
history (most-recent-first, a prefix of the exact reversal of insertion
order), hence at most `limit` entries. -/
theorem C8_history_reverse_take (L : Ledger) (employee_id : String) (limit : Int)
    (emp : Employee) (hemp : lookupEmp L employee_id = some emp) (hlim : 0 ≤ limit) :
    (leave_history employee_id limit L).1.ok = true ∧
    (leave_history employee_id limit L).1.history =
      some (emp.history.reverse.take limit.toNat) ∧
    ((emp.history.reverse.take limit.toNat).length : Int) ≤ limit := by
  unfold leave_history
  rw [hemp]
  dsimp only
  refine ⟨rfl, ?_, ?_⟩
  · show some (pySliceTo emp.history.reverse limit) =
      some (emp.history.reverse.take limit.toNat)
    rw [pySliceTo, if_pos hlim]
  · have hle : (emp.history.reverse.take limit.toNat).length ≤ limit.toNat := by
      rw [List.length_take]
      exact Nat.min_le_left _ _
    omega

/-- Witness for C8 (amended) at `leave_history("E001", 1)` on the seeded
ledger. -/
theorem C8_witness :
    (leave_history "E001" 1 initialLedger).1.ok = true ∧
    (leave_history "E001" 1 initialLedger).1.history =
      some ((["2024-12-25", "2025-01-01"] : List String).reverse.take (1 : Int).toNat) ∧
    ((((["2024-12-25", "2025-01-01"] : List String).reverse.take (1 : Int).toNat).length : Int) ≤ 1) :=
  C8_history_reverse_take initialLedger "E001" 1
    (Employee.mk 18 ["2024-12-25", "2025-01-01"]) (by decide) (by decide)

/-! ### Date acceptance (C7) -/

/-- Modelled from the spec: the "exact calendar-date format (4-digit year,
2-digit month, 2-digit day)" denoting a valid calendar date — exactly ten
characters `YYYY-MM-DD`, all digit positions ASCII digits, with valid
year/month/day values. -/
def specExactFormat (s : String) : Bool :=
  match s.toList with
  | [a, b, c, d, e, f, g, h, i, j] =>
    (e == '-') && (h == '-') &&
      (a.isDigit && b.isDigit && c.isDigit && d.isDigit &&
       f.isDigit && g.isDigit && i.isDigit && j.isDigit) &&
      (mkValidDate (1000 * digitVal a + 100 * digitVal b + 10 * digitVal c + digitVal d)
        (10 * digitVal f + digitVal g) (10 * digitVal i + digitVal j)).isSome
  | _ => false

/-- C7 counterexample: `"2025-3-1"` is not in the exact 4-2-2 format, yet
`_normalize_date` accepts it (CPython's `%m`/`%d` also match single digits)
and a mutating `apply_leave` with it succeeds. -/
theorem C7_counterexample_lenient_format :
    _normalize_date "2025-3-1" = some "2025-03-01" ∧
    specExactFormat "2025-3-1" = false ∧
    (apply_leave "E001" "2025-3-1" 1 none initialLedger).1.ok = true := by
  decide

/-- C7 amended: `_normalize_date` accepts every string in the exact
calendar-date format (4-digit year, 2-digit month, 2-digit day, ASCII digits,
denoting a valid calendar date) — but not only those: single-digit months and
days such as "2025-3-1" are also accepted (see the counterexample); and for
every string normalization rejects, `apply_leave` and `cancel_leave` fail
with the invalid-date result and do not mutate the ledger. -/
theorem C7_date_acceptance (s : String) :
    (specExactFormat s = true → (_normalize_date s).isSome = true) ∧
    (_normalize_date s = none →
      ∀ (employee_id : String) (days : Int) (reason : Option String) (L : Ledger),
        (apply_leave employee_id s days reason L).1.ok = false ∧
        (apply_leave employee_id s days reason L).2 = L ∧
        (cancel_leave employee_id s L).1.ok = false ∧
        (cancel_leave employee_id s L).2 = L) := by
  constructor
  · intro h
    unfold specExactFormat at h
    split at h
    · rename_i a b c d0 e f g h0 i j heq
      simp only [Bool.and_eq_true] at h
      obtain ⟨⟨⟨he, hh⟩, ⟨⟨⟨⟨⟨⟨⟨ha, hb⟩, hc⟩, hd0⟩, hf⟩, hg⟩, hi⟩, hj⟩⟩, hvalid⟩ := h
      have hguard : ((e == '-') && (h0 == '-') &&
          (a.isDigit && b.isDigit && c.isDigit && d0.isDigit &&
           f.isDigit && g.isDigit && i.isDigit && j.isDigit)) = true := by
        simp [he, hh, ha, hb, hc, hd0, hf, hg, hi, hj]
      have hp : parseDateChars s.toList =
          mkValidDate (1000 * digitVal a + 100 * digitVal b + 10 * digitVal c + digitVal d0)
            (10 * digitVal f + digitVal g) (10 * digitVal i + digitVal j) := by
        rw [heq]
        rw [show parseDateChars [a, b, c, d0, e, f, g, h0, i, j] =
            (if ((e == '-') && (h0 == '-') &&
                (a.isDigit && b.isDigit && c.isDigit && d0.isDigit &&
                 f.isDigit && g.isDigit && i.isDigit && j.isDigit)) then
              mkValidDate (1000 * digitVal a + 100 * digitVal b + 10 * digitVal c + digitVal d0)
                (10 * digitVal f + digitVal g) (10 * digitVal i + digitVal j)
            else none) from rfl]
        rw [if_pos hguard]
      unfold _normalize_date parseDate
      rw [hp]
      cases hm : mkValidDate
          (1000 * digitVal a + 100 * digitVal b + 10 * digitVal c + digitVal d0)
          (10 * digitVal f + digitVal g) (10 * digitVal i + digitVal j) with
      | none => rw [hm] at hvalid; cases hvalid
      | some t =>
        obtain ⟨y, m, d⟩ := t
        rfl
    · cases h
  · intro hnone employee_id days reason L
    refine ⟨?_, ?_, ?_, ?_⟩
    · unfold apply_leave; rw [hnone]
    · unfold apply_leave; rw [hnone]
    · unfold cancel_leave; rw [hnone]
    · unfold cancel_leave; rw [hnone]

/-- Witness for C7 (amended): an exact-format date that is accepted, and a
rejected string that leaves the ledger untouched. -/
theorem C7_witness :
    (_normalize_date "2025-12-31").isSome = true ∧
    (apply_leave "E001" "2025+99" 1 none initialLedger).1.ok = false ∧
    (apply_leave "E001" "2025+99" 1 none initialLedger).2 = initialLedger ∧
    (cancel_leave "E001" "2025+99" initialLedger).1.ok = false ∧
    (cancel_leave "E001" "2025+99" initialLedger).2 = initialLedger := by
  have h1 := (C7_date_acceptance "2025-12-31").1 (by decide)
  have h2 := (C7_date_acceptance "2025+99").2 (by decide) "E001" 1 none initialLedger
  exact ⟨h1, h2.1, h2.2.1, h2.2.2.1, h2.2.2.2⟩

end LeaveMgmt
